import Mathlib

/-!
# Verification of `pixabay_viewer.py` (PyMaginAPI)

A shallow embedding, in Lean 4, of the search / pagination / rendering core of
the Pixabay image viewer, together with theorems settling the claims of the
specification against it.

Conventions of the embedding:
* Python strings are modelled as `List Char`; the string helpers used by the
  program (`str.strip`, `str.split`, `str.title`) are modelled for the ASCII
  range, which is the range exercised by the tag/query handling of the program.
* Python integers are `Nat` (all quantities involved — page numbers, hit
  counts, per-page sizes — are non-negative in the program).
* The mutable state of the `PixabayViewer` object is an explicit record
  `ViewerState`; methods become state transformers that also emit the list of
  externally observable events (network calls, dialogs, renders, UI resets).
* Fallible / exceptional paths are modelled by explicit case analysis on an
  `HttpResult` describing what the one blocking network call does.
-/

namespace PyMaginAPI

/-! ## Python string primitives (ASCII model) -/

/-- Python whitespace test (`str.strip` / `str.split` default separator),
restricted to the ASCII whitespace characters (code points 9 to 13 and 32). -/
def pyIsSpace (c : Char) : Bool :=
  decide (c.toNat = 32 ∨ (9 ≤ c.toNat ∧ c.toNat ≤ 13))

/-- The Python notion of a cased character, ASCII range: a latin letter. -/
def pyIsCased (c : Char) : Bool :=
  decide ((65 ≤ c.toNat ∧ c.toNat ≤ 90) ∨ (97 ≤ c.toNat ∧ c.toNat ≤ 122))

/-- ASCII uppercasing of a single character, as CPython does for latin
letters: `a`–`z` map down by 32 code points, everything else is unchanged. -/
def pyToUpper (c : Char) : Char :=
  if 97 ≤ c.toNat ∧ c.toNat ≤ 122 then Char.ofNat (c.toNat - 32) else c

/-- ASCII lowercasing of a single character: `A`–`Z` map up by 32 code
points, everything else is unchanged. -/
def pyToLower (c : Char) : Char :=
  if 65 ≤ c.toNat ∧ c.toNat ≤ 90 then Char.ofNat (c.toNat + 32) else c

/-- Python `str.strip()` with no argument: drop leading and trailing whitespace. -/
def pyStrip (s : List Char) : List Char :=
  ((s.dropWhile pyIsSpace).reverse.dropWhile pyIsSpace).reverse

/-- Worker for `str.split()` with no separator: `acc` holds the (reversed)
characters of the word currently being scanned. Runs of whitespace are
collapsed and produce no empty words. -/
def pySplitGo : List Char → List Char → List (List Char)
  | [], acc => if acc.isEmpty then [] else [acc.reverse]
  | c :: cs, acc =>
    if pyIsSpace c then
      if acc.isEmpty then pySplitGo cs []
      else acc.reverse :: pySplitGo cs []
    else pySplitGo cs (c :: acc)

/-- Python `str.split()` with no separator: whitespace-separated words, no empties. -/
def pySplit (s : List Char) : List (List Char) :=
  pySplitGo s []

/-- One step of `str.title()`: `prev` records whether the previous character
was cased. A cased character is uppercased after an uncased position and
lowercased after a cased one; uncased characters pass through. -/
def titleStep (prev : Bool) (c : Char) : Char :=
  if pyIsCased c then (if prev then pyToLower c else pyToUpper c) else c

/-- The title-casing state after consuming one character: whether it is cased. -/
def titleState (c : Char) : Bool :=
  pyIsCased c

/-- Worker for `str.title()`, threading the previous-character-cased state. -/
def pyTitleGo (prev : Bool) : List Char → List Char
  | [] => []
  | c :: cs => titleStep prev c :: pyTitleGo (titleState c) cs

/-- Python `str.title()`: title-case a string, ASCII model. -/
def pyTitle (s : List Char) : List Char :=
  pyTitleGo false s

/-! ## Pagination arithmetic -/

/-- Line 387 of `pixabay_viewer.py`:
`self.total_pages = max(1, (total_hits + self.per_page - 1) // self.per_page)`,
with the per-page size generalised to a parameter. -/
def computeTotalPages (totalHits perPage : Nat) : Nat :=
  max 1 ((totalHits + perPage - 1) / perPage)

/-- For a positive divisor, the `(a + b - 1) / b` idiom computes the ceiling
of the rational quotient. -/
theorem add_pred_div_eq_ceil (t p : Nat) (hp : 0 < p) :
    (t + p - 1) / p = Nat.ceil ((t : ℚ) / p) := by
  have hpq : (0 : ℚ) < (p : ℚ) := by exact_mod_cast hp
  apply Nat.le_antisymm
  · rw [Nat.div_le_iff_le_mul_add_pred hp]
    have h1 : (t : ℚ) / p ≤ (Nat.ceil ((t : ℚ) / p) : ℚ) := Nat.le_ceil _
    have h2 : (t : ℚ) ≤ (Nat.ceil ((t : ℚ) / p) : ℚ) * p := (div_le_iff₀ hpq).mp h1
    have h3 : t ≤ Nat.ceil ((t : ℚ) / p) * p := by exact_mod_cast h2
    rw [Nat.mul_comm p (Nat.ceil ((t : ℚ) / p))]
    omega
  · rw [Nat.ceil_le, div_le_iff₀ hpq]
    have h4 := Nat.div_add_mod (t + p - 1) p
    have h5 := Nat.mod_lt (t + p - 1) hp
    have h6 : t ≤ (t + p - 1) / p * p := by
      rw [Nat.mul_comm]
      omega
    exact_mod_cast h6

/-! ## Data model -/

/-- One search hit as consumed by the program: the fields of a Pixabay
record that `display_images` reads (`id`, `tags`, `user`, `likes`,
`webformatURL`). -/
structure Hit where
  id : Nat
  tags : List Char
  user : List Char
  likes : Nat
  webformatURL : List Char
  deriving DecidableEq, Repr

/-- The decoded JSON envelope of a search response, keeping only the presence
and content of the two fields the program inspects: `hits` and `totalHits`.
`none` models the key being absent from the decoded object. -/
structure Payload where
  hits : Option (List Hit)
  totalHits : Option Nat
  deriving DecidableEq, Repr

/-- What the blocking `requests.get` of the search (plus the subsequent
`response.json()`) does: succeeds with a decoded payload, or raises
`requests.exceptions.Timeout`, another `requests.exceptions.RequestException`,
or any other exception (the catch-all `except Exception` arm). -/
inductive HttpResult where
  | ok (payload : Payload)
  | timeout
  | netError
  | exn
  deriving DecidableEq, Repr

/-- The kinds of error dialog `_fetch_images` can pop. -/
inductive ErrKind where
  | malformed
  | timeout
  | network
  | unexpected
  deriving DecidableEq, Repr

/-- Externally observable events of the search pipeline. -/
inductive Ev where
  | netSearch
  | warnDialog
  | errorDialog (k : ErrKind)
  | statusNoImages
  | renderResults
  | uiReset
  deriving DecidableEq, Repr

/-- The page size: `self.per_page = 24` (line 83). -/
def per_page : Nat := 24

/-- The grid width: `self.columns = 4` (line 86). -/
def columns : Nat := 4

/-- The mutable fields of the `PixabayViewer` object that the search
pipeline reads or writes, plus the three UI facts the idle state of the spec
is about. -/
structure ViewerState where
  images : List Hit
  total_pages : Nat
  current_page : Nat
  current_query : List Char
  stop_request : Bool
  searchBtnEnabled : Bool
  stopBtnVisible : Bool
  progressRunning : Bool
  deriving DecidableEq, Repr

/-- The state set up by `__init__` (lines 77–85): no images, page 1 of 1,
empty query, stop flag clear, idle UI. -/
def initState : ViewerState :=
  { images := []
    total_pages := 1
    current_page := 1
    current_query := []
    stop_request := false
    searchBtnEnabled := true
    stopBtnVisible := false
    progressRunning := false }

/-- The idle UI state: search button enabled, stop button hidden, progress
indicator stopped. -/
def isIdle (s : ViewerState) : Bool :=
  s.searchBtnEnabled && !s.stopBtnVisible && !s.progressRunning

/-- Method `_reset_search_ui` (lines 427–432): re-enable search, hide stop, stop and
hide the progress bar. -/
def reset_search_ui (s : ViewerState) : ViewerState :=
  { s with searchBtnEnabled := true, stopBtnVisible := false,
           progressRunning := false }

/-- The in-progress UI set up by `search_images` (lines 310–313): search
button disabled, stop button shown, progress bar started. -/
def searchBusy (s : ViewerState) : ViewerState :=
  { s with searchBtnEnabled := false, stopBtnVisible := true,
           progressRunning := true }

/-- The UI touches of `_perform_search` (lines 334–336): stop button shown
and progress bar started (the search button is not touched here). -/
def performBusy (s : ViewerState) : ViewerState :=
  { s with stopBtnVisible := true, progressRunning := true }

/-- Method `stop_search` (lines 289–295): set the stop flag and immediately restore
the idle UI. -/
def stop_search (s : ViewerState) : ViewerState :=
  { s with stop_request := true, searchBtnEnabled := true,
           stopBtnVisible := false, progressRunning := false }

/-! ## The search pipeline -/

/-- Outcome of submitting the search form. -/
inductive SearchStart where
  | rejectedEmptyQuery
  | started (query : List Char)
  deriving DecidableEq, Repr

/-- Method `search_images` (lines 297–325): strip the query; an empty result pops a
warning dialog and returns without touching state or the network. Otherwise
the stop flag is cleared, the in-progress UI is entered, and the background
search is spawned with the stripped query. -/
def search_images (s : ViewerState) (rawQuery : List Char) :
    ViewerState × SearchStart × List Ev :=
  let query := pyStrip rawQuery
  if query.isEmpty then
    (s, .rejectedEmptyQuery, [.warnDialog])
  else
    (searchBusy { s with stop_request := false }, .started query, [])

/-- Method `_perform_search` (lines 327–345): bail out if the stop flag is already
set (spawning no fetch); otherwise show the busy UI, record the query and
page, and spawn `_fetch_images`. The returned `Bool` is whether the fetch
thread was spawned. -/
def perform_search (s : ViewerState) (query : List Char) (page : Nat) :
    ViewerState × Bool :=
  if s.stop_request then (s, false)
  else ({ performBusy s with current_query := query, current_page := page },
        true)

/-- Method `_fetch_images` (lines 356–425). Checkpoints: the stop flag is read
before issuing the HTTP call (line 359) and again after the response, before
any rendering (line 369). `stopDuringHttp` models `stop_search` running while
the thread is blocked inside `requests.get`, so that the flag is up by the
time of the second checkpoint. The `finally` clause always applies
`_reset_search_ui`; every branch therefore ends with the `uiReset` event.
On a well-formed response the hits are stored and
`total_pages = max(1, (totalHits + per_page - 1) // per_page)` (line 387);
a payload missing `hits` *or* `totalHits` (line 375) pops the invalid-response
dialog and leaves the result state untouched. -/
def fetch_images (s : ViewerState) (stopDuringHttp : Bool)
    (http : HttpResult) : ViewerState × List Ev :=
  if s.stop_request then (reset_search_ui s, [.uiReset])
  else
    let s1 := if stopDuringHttp then { s with stop_request := true } else s
    match http with
    | .timeout =>
        (reset_search_ui s1, [.netSearch, .errorDialog .timeout, .uiReset])
    | .netError =>
        (reset_search_ui s1, [.netSearch, .errorDialog .network, .uiReset])
    | .exn =>
        (reset_search_ui s1, [.netSearch, .errorDialog .unexpected, .uiReset])
    | .ok payload =>
        if s1.stop_request then (reset_search_ui s1, [.netSearch, .uiReset])
        else
          match payload.hits, payload.totalHits with
          | some hits, some totalHits =>
              let s2 := { s1 with
                          images := hits
                          total_pages := computeTotalPages totalHits per_page }
              if hits.isEmpty then
                (reset_search_ui s2, [.netSearch, .statusNoImages, .uiReset])
              else
                (reset_search_ui s2, [.netSearch, .renderResults, .uiReset])
          | _, _ =>
              (reset_search_ui s1,
               [.netSearch, .errorDialog .malformed, .uiReset])

/-! ## The cancellation scenario (claim C2) -/

/-- When, relative to the background work, the user presses Stop, for the
scenarios in which the flag is up before the search response returns:
before `_perform_search` reads the flag (line 329), after the fetch thread is
spawned but before `_fetch_images` reads the flag (line 359), or while the
thread is blocked inside `requests.get` (so the post-response check at
line 369 sees it). -/
inductive StopPoint where
  | beforePerform
  | beforeHttp
  | duringHttp
  deriving DecidableEq, Repr

/-- The sequence of UI states and the events of one cancelled search session:
the user submits a non-empty query, presses Stop at `sp`, and the background
work runs to completion against `http`. The state list records every point
at which a thread mutated the UI. -/
def cancelSession (s0 : ViewerState) (sp : StopPoint) (http : HttpResult) :
    List ViewerState × List Ev :=
  let s1 := searchBusy { s0 with stop_request := false }
  match sp with
  | .beforePerform =>
      let s2 := stop_search s1
      ([s0, s1, s2], [])
  | .beforeHttp =>
      let s2 := (perform_search s1 s1.current_query 1).1
      let s3 := stop_search s2
      let r := fetch_images s3 false http
      ([s0, s1, s2, s3, r.1], r.2)
  | .duringHttp =>
      let s2 := (perform_search s1 s1.current_query 1).1
      let s3 := stop_search s2
      let r := fetch_images s2 true http
      ([s0, s1, s2, s3, r.1], r.2)

/-- Number of transitions of the UI into the idle state along a state trace. -/
def countIdleRestores : List ViewerState → Nat
  | a :: b :: rest =>
      (if !isIdle a && isIdle b then 1 else 0) + countIdleRestores (b :: rest)
  | _ => 0

/-! ## Grid rendering (`display_images`, lines 434–571) -/

/-- One fully rendered grid cell: the item index it came from, the grid
position, and the (truncated) title text displayed in it. -/
structure Cell where
  idx : Nat
  row : Nat
  col : Nat
  title : List Char
  deriving DecidableEq, Repr

/-- The title shown in a cell (lines 506–511):
`image_title = tags.title()`, then the first five whitespace-separated words
joined by spaces, with `"..."` appended when there are more than five. -/
def title_text (tags : List Char) : List Char :=
  List.intercalate [' '] ((pySplit (pyTitle tags)).take 5) ++
    (if 5 < (pySplit (pyTitle tags)).length then ['.', '.', '.'] else [])

/-- The rendering loop of `display_images` (lines 461–556). `fails i` says
whether fetching/decoding the thumbnail of item `i` raises (the inner
`try`/`except` at lines 485–498). Mirrors the source: the loop breaks once
the index reaches a positive multiple of `per_page` (line 465); a frame is
created for every processed item *before* the fetch is attempted (line 468),
so the first output lists every processed index; a failed item is skipped by
`continue` without advancing the grid position; a successful item becomes a
cell and the position advances, wrapping every `columns` cells (lines
549–552). -/
def displayGo (fails : Nat → Bool) :
    List Hit → Nat → Nat → Nat → List Nat × List Cell
  | [], _, _, _ => ([], [])
  | h :: rest, idx, row, col =>
    if 0 < idx ∧ idx % per_page = 0 then ([], [])
    else if fails idx then
      let r := displayGo fails rest (idx + 1) row col
      (idx :: r.1, r.2)
    else
      let pos := if columns ≤ col + 1 then (row + 1, 0) else (row, col + 1)
      let r := displayGo fails rest (idx + 1) pos.1 pos.2
      (idx :: r.1,
       { idx := idx, row := row, col := col, title := title_text h.tags }
         :: r.2)

/-- Method `display_images` over a hit list: processed frame indices and rendered
cells, starting from index 0 at grid position (0, 0). -/
def display_images (images : List Hit) (fails : Nat → Bool) :
    List Nat × List Cell :=
  displayGo fails images 0 0 0

/-! ## Pagination controls (`update_pagination_controls`, lines 216–259) -/

/-- What the pagination bar shows when it is rendered: the disabled state of
the two buttons, the page each button command passes to
`_perform_search(current_query, ...)`, and the "page X of Y" label. -/
structure PaginationBar where
  prevDisabled : Bool
  nextDisabled : Bool
  prevTargetPage : Nat
  nextTargetPage : Nat
  labelCurrent : Nat
  labelTotal : Nat
  deriving DecidableEq, Repr

/-- Method `update_pagination_controls`: renders nothing when `total_pages <= 1`
(line 225); otherwise Previous is disabled iff `current_page == 1`
(line 235), Next is disabled iff `current_page >= total_pages` (line 255),
and the button commands target `max(1, current_page - 1)` (line 233) and
`min(total_pages, current_page + 1)` (line 253). -/
def update_pagination_controls (current_page total_pages : Nat) :
    Option PaginationBar :=
  if total_pages ≤ 1 then none
  else
    some { prevDisabled := decide (current_page = 1)
           nextDisabled := decide (total_pages ≤ current_page)
           prevTargetPage := max 1 (current_page - 1)
           nextTargetPage := min total_pages (current_page + 1)
           labelCurrent := current_page
           labelTotal := total_pages }

/-! ## Localization (`Translator`, lines 15–49) -/

/-- A decoded JSON value, as loaded from a translation file. -/
inductive PyVal where
  | str (s : List Char)
  | num (n : Int)
  | dict (entries : List (List Char × PyVal))
  | arr (xs : List PyVal)

/-- Python `dict` item lookup on an association list. -/
def dictLookup (k : List Char) : List (List Char × PyVal) → Option PyVal
  | [] => none
  | (k2, v) :: rest => if k2 = k then some v else dictLookup k rest

/-- The exceptions one step of `value = value[k]` can raise: `KeyError` when
a dict lacks the key, `TypeError` when `value` is not a dict at all
(indexing a string, number or array with a string key). -/
inductive StepErr where
  | keyError
  | typeError
  deriving DecidableEq, Repr

/-- The loop of `Translator.get` (lines 40–43): successively index the
translations value with each component of the dot-separated key. -/
def walkKeys : PyVal → List (List Char) → Except StepErr PyVal
  | v, [] => .ok v
  | .dict d, k :: ks =>
      match dictLookup k d with
      | some v => walkKeys v ks
      | none => .error .keyError
  | .str _, _ :: _ => .error .typeError
  | .num _, _ :: _ => .error .typeError
  | .arr _, _ :: _ => .error .typeError

/-- Python `str(value)` as applied on line 47, modelled only as far as the claims
need it: a string renders as itself; other values get an opaque rendering
(whose exact text no claim depends on). -/
def pyStr : PyVal → List Char
  | .str s => s
  | _ => ['<', 'v', 'a', 'l', 'u', 'e', '>']

/-- What a call to `Translator.get` does. -/
inductive GetOutcome where
  | ok (text : List Char)
  | uncaughtTypeError
  deriving DecidableEq, Repr

/-- Method `Translator.get` (lines 36–49), without keyword formatting: split the key
on dots, walk the translations; `except (KeyError, AttributeError)` turns a
`KeyError` into returning the key text itself, but a `TypeError` — raised
when the walk indexes into a non-dict value — is not in the handled tuple
and escapes the method. -/
def translator_get (translations : PyVal) (key : List Char) : GetOutcome :=
  match walkKeys translations (key.splitOn '.') with
  | .ok v => .ok (pyStr v)
  | .error .keyError => .ok key
  | .error .typeError => .uncaughtTypeError

/-! ## Theorems -/

/-- C1: For every totalHits ≥ 0 and every positive perPage, the total page
count computed after a successful fetch equals max(1, ceil(totalHits /
perPage)); in particular totalHits=0 gives 1 page, totalHits=21 with
perPage=21 gives 1, totalHits=22 with perPage=21 gives 2, and totalHits=500
with perPage=24 gives 21. -/
theorem c1_total_pages (totalHits perPage : Nat) (hp : 0 < perPage) :
    computeTotalPages totalHits perPage =
      max 1 (Nat.ceil ((totalHits : ℚ) / (perPage : ℚ))) ∧
    computeTotalPages 0 24 = 1 ∧ computeTotalPages 21 21 = 1 ∧
    computeTotalPages 22 21 = 2 ∧ computeTotalPages 500 24 = 21 := by
  refine ⟨?_, by decide, by decide, by decide, by decide⟩
  unfold computeTotalPages
  rw [add_pred_div_eq_ceil totalHits perPage hp]

/-- Witness for C1 at totalHits = 500, perPage = 24. -/
theorem c1_total_pages_witness :
    0 < 24 ∧
    (computeTotalPages 500 24 =
        max 1 (Nat.ceil (((500 : Nat) : ℚ) / ((24 : Nat) : ℚ))) ∧
     computeTotalPages 0 24 = 1 ∧ computeTotalPages 21 21 = 1 ∧
     computeTotalPages 22 21 = 2 ∧ computeTotalPages 500 24 = 21) :=
  ⟨by decide, c1_total_pages 500 24 (by decide)⟩

/-- C4: For every query that is empty or whitespace-only after trimming
(that is, every character is whitespace), submitting the search pops the
empty-query warning (the local validation failure), changes no state, and
performs no network call whatsoever. -/
theorem c4_empty_query_no_network (s : ViewerState) (rawQuery : List Char)
    (h : ∀ c ∈ rawQuery, pyIsSpace c = true) :
    search_images s rawQuery = (s, .rejectedEmptyQuery, [.warnDialog]) ∧
    Ev.netSearch ∉ (search_images s rawQuery).2.2 := by
  have hdrop : rawQuery.dropWhile pyIsSpace = [] :=
    List.dropWhile_eq_nil_iff.mpr h
  have hstrip : pyStrip rawQuery = [] := by
    simp [pyStrip, hdrop]
  refine ⟨by simp [search_images, hstrip], ?_⟩
  simp [search_images, hstrip]

/-- Witness for C4 on the three-space query `"   "`. -/
theorem c4_empty_query_no_network_witness :
    (∀ c ∈ ("   ".toList), pyIsSpace c = true) ∧
    (search_images initState ("   ".toList) =
        (initState, .rejectedEmptyQuery, [.warnDialog]) ∧
     Ev.netSearch ∉ (search_images initState ("   ".toList)).2.2) :=
  ⟨by decide, c4_empty_query_no_network initState ("   ".toList) (by decide)⟩

/-- C8: For every in-range (currentPage, totalPages) state, the pagination
controls render nothing when totalPages ≤ 1; otherwise they show a Previous
button disabled iff currentPage = 1 and a Next button disabled iff
currentPage = totalPages, and the Previous/Next commands re-invoke the
search with the adjacent page number clamped to stay within
[1, totalPages]. -/
theorem c8_pagination_controls (current_page total_pages : Nat)
    (h1 : 1 ≤ current_page) (h2 : current_page ≤ total_pages) :
    (update_pagination_controls current_page total_pages = none ↔
      total_pages ≤ 1) ∧
    (∀ bar, update_pagination_controls current_page total_pages = some bar →
      (bar.prevDisabled = true ↔ current_page = 1) ∧
      (bar.nextDisabled = true ↔ current_page = total_pages) ∧
      bar.prevTargetPage = max 1 (current_page - 1) ∧
      bar.nextTargetPage = min total_pages (current_page + 1) ∧
      1 ≤ bar.prevTargetPage ∧ bar.prevTargetPage ≤ total_pages ∧
      1 ≤ bar.nextTargetPage ∧ bar.nextTargetPage ≤ total_pages) := by
  unfold update_pagination_controls
  by_cases htp : total_pages ≤ 1
  · simp [htp]
  · simp only [htp, if_false, iff_false]
    refine ⟨by simp, ?_⟩
    rintro bar hbar
    obtain rfl : bar = _ := (Option.some.injEq _ _).mp hbar.symm
    refine ⟨by simp, ?_, rfl, rfl, ?_, ?_, ?_, ?_⟩ <;> simp <;> omega

/-- Witness for C8 at currentPage = 2, totalPages = 3. -/
theorem c8_pagination_controls_witness :
    1 ≤ 2 ∧ 2 ≤ 3 ∧
    ((update_pagination_controls 2 3 = none ↔ (3 : Nat) ≤ 1) ∧
     (∀ bar, update_pagination_controls 2 3 = some bar →
       (bar.prevDisabled = true ↔ 2 = 1) ∧
       (bar.nextDisabled = true ↔ 2 = 3) ∧
       bar.prevTargetPage = max 1 (2 - 1) ∧
       bar.nextTargetPage = min 3 (2 + 1) ∧
       1 ≤ bar.prevTargetPage ∧ bar.prevTargetPage ≤ 3 ∧
       1 ≤ bar.nextTargetPage ∧ bar.nextTargetPage ≤ 3)) :=
  ⟨by decide, by decide, c8_pagination_controls 2 3 (by decide) (by decide)⟩

/-- The English translations relevant to the C9 failing input: `app_title`
is a plain string at the top level, as in `translations/en.json`. -/
def enTranslationsEx : PyVal :=
  .dict [(("app_title".toList), .str ("Pixabay Image Viewer".toList))]

/-- C9 (code bug): the key "app_title.x" is missing from the mapping, so per
the claim `Translator.get` should return the key text itself; instead the
walk indexes the string value `translations["app_title"]` with `"x"`, which
raises a `TypeError` that the `except (KeyError, AttributeError)` handler
does not catch, escaping the method. The second conjunct shows the intended
fallback does work when the failure is a `KeyError`, confirming the
uncaught `TypeError` is a slip, not a design choice. -/
theorem c9_missing_key_lookup :
    translator_get enTranslationsEx ("app_title.x".toList) =
      .uncaughtTypeError ∧
    translator_get enTranslationsEx ("missing.key".toList) =
      .ok ("missing.key".toList) := by
  decide

/-- C6: For every run of the background fetch — whatever the stop flag, and
whichever path the response takes (success with hits, empty results,
timeout, network error, malformed response, unexpected error, or
cancellation) — the `finally` clause restores the idle UI: the search button
is re-enabled, the stop button hidden, the progress indicator stopped, and
the UI-reset is the last thing the fetch does. -/
theorem c6_fetch_always_resets_ui (s : ViewerState) (stopDuringHttp : Bool)
    (http : HttpResult) :
    (fetch_images s stopDuringHttp http).1.searchBtnEnabled = true ∧
    (fetch_images s stopDuringHttp http).1.stopBtnVisible = false ∧
    (fetch_images s stopDuringHttp http).1.progressRunning = false ∧
    (fetch_images s stopDuringHttp http).2.getLast? = some Ev.uiReset := by
  by_cases hs : s.stop_request
  · simp [fetch_images, hs, reset_search_ui]
  · cases http with
    | timeout => simp [fetch_images, hs, reset_search_ui]
    | netError => simp [fetch_images, hs, reset_search_ui]
    | exn => simp [fetch_images, hs, reset_search_ui]
    | ok payload =>
        obtain ⟨hits, totalHits⟩ := payload
        cases stopDuringHttp with
        | true => simp [fetch_images, hs, reset_search_ui]
        | false =>
            cases hits with
            | none => cases totalHits <;> simp [fetch_images, hs, reset_search_ui]
            | some l =>
                cases totalHits with
                | none => simp [fetch_images, hs, reset_search_ui]
                | some t =>
                    cases l <;> simp [fetch_images, hs, reset_search_ui]

/-- C2: If the cancellation flag is set before the network response of a search
returns — whether `_perform_search` sees it before spawning the fetch, the
fetch sees it before issuing the HTTP call, or only the post-response check
sees it — then no render of the results happens for that session, and the
UI transitions into the idle state exactly once (by `stop_search`; the
reset in the finally clause of the fetch finds the UI already idle). -/
theorem c2_cancel_prevents_render (s0 : ViewerState) (sp : StopPoint)
    (http : HttpResult) :
    (cancelSession s0 sp http).2.count Ev.renderResults = 0 ∧
    countIdleRestores (cancelSession s0 sp http).1 = 1 := by
  cases sp with
  | beforePerform =>
      simp [cancelSession, countIdleRestores, isIdle, searchBusy, stop_search]
  | beforeHttp =>
      simp [cancelSession, countIdleRestores, isIdle, searchBusy, stop_search,
            perform_search, performBusy, fetch_images, reset_search_ui]
  | duringHttp =>
      cases http <;>
        simp [cancelSession, countIdleRestores, isIdle, searchBusy,
              stop_search, perform_search, performBusy, fetch_images,
              reset_search_ui]

/-- C3 counterexample: a decoded payload that has `hits` but lacks
`totalHits` does not lack *both* fields, so per the claim no
MalformedResponse should be raised — yet the code (line 375:
`if "hits" not in data or "totalHits" not in data`) pops the
invalid-response dialog for it. -/
theorem c3_malformed_counterexample :
    Ev.errorDialog ErrKind.malformed ∈
      (fetch_images initState false
        (.ok { hits := some [], totalHits := none })).2 ∧
    ¬(Payload.hits { hits := some [], totalHits := none } = none ∧
      Payload.totalHits { hits := some ([] : List Hit), totalHits := none }
        = none) := by
  decide

/-- C3 (amended): the MalformedResponse dialog is raised exactly when the
decoded payload lacks the `hits` field *or* lacks the `totalHits` field;
when it is raised, `_fetch_images` leaves the stored results and the
page/query state unchanged (only the UI is reset). -/
theorem c3_malformed_iff_missing_field (s : ViewerState) (payload : Payload)
    (hs : s.stop_request = false) :
    (Ev.errorDialog ErrKind.malformed ∈
        (fetch_images s false (.ok payload)).2 ↔
      (payload.hits = none ∨ payload.totalHits = none)) ∧
    ((payload.hits = none ∨ payload.totalHits = none) →
      (fetch_images s false (.ok payload)).1.images = s.images ∧
      (fetch_images s false (.ok payload)).1.total_pages = s.total_pages ∧
      (fetch_images s false (.ok payload)).1.current_page = s.current_page ∧
      (fetch_images s false (.ok payload)).1.current_query
        = s.current_query) := by
  obtain ⟨hits, totalHits⟩ := payload
  cases hits with
  | none => cases totalHits <;> simp [fetch_images, hs, reset_search_ui]
  | some l =>
      cases totalHits with
      | none => simp [fetch_images, hs, reset_search_ui]
      | some t => cases l <;> simp [fetch_images, hs, reset_search_ui]

/-- Witness for the amended C3 theorem on a payload lacking both fields. -/
theorem c3_malformed_iff_missing_field_witness :
    initState.stop_request = false ∧
    ((Ev.errorDialog ErrKind.malformed ∈
        (fetch_images initState false
          (.ok { hits := none, totalHits := none })).2 ↔
      (Payload.hits { hits := none, totalHits := none } = none ∨
       Payload.totalHits { hits := none, totalHits := none } = none)) ∧
    ((Payload.hits { hits := none, totalHits := none } = none ∨
      Payload.totalHits { hits := none, totalHits := none } = none) →
      (fetch_images initState false
          (.ok { hits := none, totalHits := none })).1.images
        = initState.images ∧
      (fetch_images initState false
          (.ok { hits := none, totalHits := none })).1.total_pages
        = initState.total_pages ∧
      (fetch_images initState false
          (.ok { hits := none, totalHits := none })).1.current_page
        = initState.current_page ∧
      (fetch_images initState false
          (.ok { hits := none, totalHits := none })).1.current_query
        = initState.current_query)) :=
  ⟨rfl, c3_malformed_iff_missing_field initState
    { hits := none, totalHits := none } rfl⟩

/-- The rendered cells are exactly the processed frames that did not fail,
in order: mapping each cell to its item index gives the processed index list
filtered by success. -/
theorem displayGo_cells_map (fails : Nat → Bool) :
    ∀ (l : List Hit) (idx row col : Nat),
    (displayGo fails l idx row col).2.map Cell.idx =
      (displayGo fails l idx row col).1.filter (fun i => !fails i) := by
  intro l
  induction l with
  | nil => intro idx row col; simp [displayGo]
  | cons h rest ih =>
      intro idx row col
      by_cases hb : 0 < idx ∧ idx % per_page = 0
      · simp [displayGo, hb]
      · by_cases hf : fails idx
        · simp [displayGo, hb, hf, ih]
        · by_cases hc : columns ≤ col + 1 <;> simp [displayGo, hb, hf, hc, ih]

/-- Starting from a positive index no greater than `per_page`, the loop
processes the items up to (excluding) index `per_page` and then breaks:
the processed indices are an initial run of the naturals. -/
theorem displayGo_frames (fails : Nat → Bool) :
    ∀ (l : List Hit) (idx row col : Nat), 1 ≤ idx → idx ≤ per_page →
    (displayGo fails l idx row col).1 =
      List.range' idx (min l.length (per_page - idx)) := by
  intro l
  induction l with
  | nil => intro idx row col _ _; simp [displayGo]
  | cons h rest ih =>
      intro idx row col h1 h2
      have hpp : per_page = 24 := rfl
      by_cases hb : 0 < idx ∧ idx % per_page = 0
      · have hidx : idx = 24 := by
          obtain ⟨hb1, hb2⟩ := hb
          rw [hpp] at hb2 h2
          omega
        subst hidx
        simp [displayGo, hpp]
      · have hidx : idx < 24 := by
          rcases Nat.lt_or_ge idx 24 with hlt | hge
          · exact hlt
          · exact absurd ⟨by omega, by rw [hpp]; omega⟩ hb
        have harith : min ((h :: rest).length) (per_page - idx)
            = min rest.length (per_page - (idx + 1)) + 1 := by
          simp only [List.length_cons]
          omega
        rw [harith, List.range'_succ]
        by_cases hf : fails idx
        · simp [displayGo, hb, hf]
          rw [ih (idx + 1) row col (by omega) (by omega)]
        · by_cases hc : columns ≤ col + 1
          · simp [displayGo, hb, hf, hc]
            rw [ih (idx + 1) (row + 1) 0 (by omega) (by omega)]
          · simp [displayGo, hb, hf, hc]
            rw [ih (idx + 1) row (col + 1) (by omega) (by omega)]

/-- From index 0, `display_images` processes exactly the first
`min length per_page` items. -/
theorem display_images_frames (images : List Hit) (fails : Nat → Bool) :
    (display_images images fails).1 =
      List.range (min images.length per_page) := by
  cases images with
  | nil => simp [display_images, displayGo]
  | cons h rest =>
      have hpp : per_page = 24 := rfl
      have key : ∀ row col,
          0 :: (displayGo fails rest 1 row col).1 =
            List.range (min (rest.length + 1) per_page) := by
        intro row col
        rw [displayGo_frames fails rest 1 row col (Nat.le_refl 1) (by omega),
            List.range_eq_range']
        have harith : min (rest.length + 1) per_page
            = min rest.length (per_page - 1) + 1 := by omega
        rw [harith, List.range'_succ]
      by_cases hf : fails 0
      · have h0 : (display_images (h :: rest) fails).1 =
            0 :: (displayGo fails rest 1 0 0).1 := by
          simp [display_images, displayGo, hf]
        rw [h0]
        exact key 0 0
      · have h0 : (display_images (h :: rest) fails).1 =
            0 :: (displayGo fails rest 1 0 1).1 := by
          simp [display_images, displayGo, hf, columns]
        rw [h0]
        exact key 0 1

/-- Splitting a list of naturals by a boolean predicate preserves length. -/
theorem length_filter_add_length_filter_not (p : Nat → Bool) (l : List Nat) :
    (l.filter fun a => !p a).length + (l.filter p).length = l.length := by
  induction l with
  | nil => simp
  | cons a t ih => by_cases hp : p a <;> simp [List.filter_cons, hp] <;> omega

/-- C10: For every fetched hits list, `display_images` creates grid cells
for at most `per_page` (24) items: the loop processes exactly the first
`min length per_page` indices (breaking as soon as the index reaches the
positive multiple `per_page` of `per_page`), so every rendered cell comes
from an index below `per_page` and items beyond the first `per_page` are
never rendered. -/
theorem c10_at_most_per_page_rendered (images : List Hit)
    (fails : Nat → Bool) :
    (display_images images fails).1 =
      List.range (min images.length per_page) ∧
    ∀ c ∈ (display_images images fails).2, c.idx < per_page := by
  refine ⟨display_images_frames images fails, ?_⟩
  intro c hc
  have hmem : c.idx ∈ (display_images images fails).2.map Cell.idx :=
    List.mem_map_of_mem Cell.idx hc
  rw [display_images, displayGo_cells_map] at hmem
  have hfr : c.idx ∈ (displayGo fails images 0 0 0).1 :=
    List.mem_of_mem_filter hmem
  rw [show (displayGo fails images 0 0 0).1 = (display_images images fails).1
        from rfl,
      display_images_frames images fails] at hfr
  have := List.mem_range.mp hfr
  omega

/-- C5: For every result page of `M ≤ per_page` items, per-image failures
are non-fatal: the rendered cells are exactly the non-failing items, in
order — a failure at item N omits only that cell while items N+1..M are still
processed and rendered — and the rendered count is M minus the number of
failed items. -/
theorem c5_image_failures_nonfatal (images : List Hit) (fails : Nat → Bool)
    (h : images.length ≤ per_page) :
    (display_images images fails).2.map Cell.idx =
      (List.range images.length).filter (fun i => !fails i) ∧
    (display_images images fails).2.length =
      images.length -
        ((List.range images.length).filter fails).length := by
  have hmap : (display_images images fails).2.map Cell.idx =
      (List.range images.length).filter (fun i => !fails i) := by
    rw [display_images, displayGo_cells_map]
    rw [show (displayGo fails images 0 0 0).1 = (display_images images fails).1
          from rfl,
        display_images_frames images fails]
    rw [Nat.min_eq_left h]
  refine ⟨hmap, ?_⟩
  have hlen : (display_images images fails).2.length =
      ((List.range images.length).filter (fun i => !fails i)).length := by
    rw [← hmap, List.length_map]
  have hsplit := length_filter_add_length_filter_not fails
    (List.range images.length)
  have hrange : (List.range images.length).length = images.length :=
    List.length_range images.length
  omega

/-- A concrete three-item page for the C5 witness. -/
def exHits : List Hit :=
  [{ id := 1, tags := [], user := [], likes := 0, webformatURL := [] },
   { id := 2, tags := [], user := [], likes := 0, webformatURL := [] },
   { id := 3, tags := [], user := [], likes := 0, webformatURL := [] }]

/-- The C5 witness failure pattern: the thumbnail fetch of the middle item fails. -/
def failsSecond (i : Nat) : Bool :=
  decide (i = 1)

/-- Witness for C5: of 3 items with item 1 failing, items 0 and 2 are
rendered and the count is 3 − 1 = 2. -/
theorem c5_image_failures_nonfatal_witness :
    exHits.length ≤ per_page ∧
    ((display_images exHits failsSecond).2.map Cell.idx =
        (List.range exHits.length).filter (fun i => !failsSecond i) ∧
     (display_images exHits failsSecond).2.length =
        exHits.length -
          ((List.range exHits.length).filter failsSecond).length) ∧
    (display_images exHits failsSecond).2.map Cell.idx = [0, 2] ∧
    (display_images exHits failsSecond).2.length = 2 :=
  ⟨by decide, c5_image_failures_nonfatal exHits failsSecond (by decide),
   by decide, by decide⟩

/-- Applying `Char.ofNat` below the surrogate range really constructs the requested
code point. -/
theorem toNat_ofNat_of_lt (m : Nat) (h : m < 55296) :
    (Char.ofNat m).toNat = m := by
  have hv : m.isValidChar := Or.inl h
  simp [Char.ofNat, hv, Char.ofNatAux, Char.toNat, UInt32.toNat,
        BitVec.toNat_ofNatLt]

/-- Title-casing one character never changes whether it is whitespace:
letters stay letters and everything else is untouched. -/
theorem pyIsSpace_titleStep (p : Bool) (c : Char) :
    pyIsSpace (titleStep p c) = pyIsSpace c := by
  unfold titleStep
  by_cases hc : pyIsCased c = true
  · rw [if_pos hc]
    have hc2 : (65 ≤ c.toNat ∧ c.toNat ≤ 90) ∨
        (97 ≤ c.toNat ∧ c.toNat ≤ 122) := by
      simpa [pyIsCased] using hc
    have hspace : pyIsSpace c = false := by
      simp only [pyIsSpace, decide_eq_false_iff_not]
      omega
    rw [hspace]
    by_cases hp : p = true
    · rw [if_pos hp]
      unfold pyToLower
      by_cases hr : 65 ≤ c.toNat ∧ c.toNat ≤ 90
      · rw [if_pos hr]
        have hv : (Char.ofNat (c.toNat + 32)).toNat = c.toNat + 32 :=
          toNat_ofNat_of_lt _ (by omega)
        simp only [pyIsSpace, hv, decide_eq_false_iff_not]
        omega
      · rw [if_neg hr]
        exact hspace
    · rw [if_neg hp]
      unfold pyToUpper
      by_cases hr : 97 ≤ c.toNat ∧ c.toNat ≤ 122
      · rw [if_pos hr]
        have hv : (Char.ofNat (c.toNat - 32)).toNat = c.toNat - 32 :=
          toNat_ofNat_of_lt _ (by omega)
        simp only [pyIsSpace, hv, decide_eq_false_iff_not]
        omega
      · rw [if_neg hr]
        exact hspace
  · rw [if_neg hc]

/-- The title-casing state after consuming a whole list. -/
def titleStateAfter (p : Bool) (l : List Char) : Bool :=
  l.foldl (fun _ c => titleState c) p

/-- The worker of `str.title` distributes over append, handing the state at the
end of the first part to the second. -/
theorem pyTitleGo_append (l1 l2 : List Char) : ∀ p : Bool,
    pyTitleGo p (l1 ++ l2) =
      pyTitleGo p l1 ++ pyTitleGo (titleStateAfter p l1) l2 := by
  induction l1 with
  | nil => intro p; simp [pyTitleGo, titleStateAfter]
  | cons c t ih => intro p; simp [pyTitleGo, titleStateAfter, ih]

/-- Whether the most recently consumed character (the head of the reversed
accumulator) is cased. -/
def headCased : List Char → Bool
  | [] => false
  | c :: _ => pyIsCased c

/-- The title state after a reversed accumulator is the casedness of its
most recent character. -/
theorem titleStateAfter_reverse (acc : List Char) :
    titleStateAfter false acc.reverse = headCased acc := by
  cases acc with
  | nil => rfl
  | cons c t =>
      simp [titleStateAfter, headCased, List.reverse_cons, List.foldl_append,
            titleState]

/-- The title-cased version of the split accumulator (still reversed). -/
def titledAcc (acc : List Char) : List Char :=
  (pyTitleGo false acc.reverse).reverse

/-- Pushing a character onto the accumulator title-cases it with the state
reached after the characters of the accumulator. -/
theorem titledAcc_cons (acc : List Char) (c : Char) :
    titledAcc (c :: acc) = titleStep (headCased acc) c :: titledAcc acc := by
  unfold titledAcc
  rw [List.reverse_cons, pyTitleGo_append, titleStateAfter_reverse]
  simp [pyTitleGo]

/-- Title-casing the accumulator does not change its emptiness. -/
theorem titledAcc_isEmpty (acc : List Char) :
    (titledAcc acc).isEmpty = acc.isEmpty := by
  cases acc with
  | nil => rfl
  | cons c t =>
      rw [titledAcc_cons]
      rfl

/-- The split of a title-cased string is the list of title-cased words of
the split of the original: word boundaries are untouched by `str.title`. -/
theorem pySplitGo_pyTitleGo (s : List Char) : ∀ acc : List Char,
    pySplitGo (pyTitleGo (headCased acc) s) (titledAcc acc) =
      (pySplitGo s acc).map pyTitle := by
  induction s with
  | nil =>
      intro acc
      simp only [pyTitleGo, pySplitGo, titledAcc_isEmpty]
      by_cases he : acc.isEmpty
      · rw [if_pos he, if_pos he]
        rfl
      · rw [if_neg he, if_neg he]
        simp [titledAcc, pyTitle]
  | cons c cs ih =>
      intro acc
      simp only [pyTitleGo]
      by_cases hsp : pyIsSpace c = true
      · have hcased : pyIsCased c = false := by
          simp only [pyIsSpace, decide_eq_true_eq] at hsp
          simp only [pyIsCased, decide_eq_false_iff_not]
          omega
        have hstep : titleStep (headCased acc) c = c := by
          simp [titleStep, hcased]
        rw [hstep]
        simp only [pySplitGo, hsp, titledAcc_isEmpty, eq_self_iff_true,
                   if_true]
        by_cases he : acc.isEmpty
        · rw [if_pos he, if_pos he]
          have h0 := ih []
          rw [show titledAcc [] = [] from rfl] at h0
          rw [show titleState c = headCased [] by
                simp [titleState, headCased, hcased]]
          exact h0
        · rw [if_neg he, if_neg he]
          rw [List.map_cons]
          have h0 := ih []
          rw [show titledAcc [] = [] from rfl] at h0
          rw [show titleState c = headCased [] by
                simp [titleState, headCased, hcased]]
          rw [h0]
          congr 1
          simp [titledAcc, pyTitle]
      · have hsp2 : pyIsSpace c = false := by
          revert hsp
          cases pyIsSpace c <;> simp
        have hstep_sp : pyIsSpace (titleStep (headCased acc) c) = false := by
          rw [pyIsSpace_titleStep]
          exact hsp2
        simp only [pySplitGo, hstep_sp, hsp2, Bool.false_eq_true, if_false]
        rw [← titledAcc_cons]
        exact ih (c :: acc)

/-- Python `str.split()` commutes with `str.title()`: splitting the title-cased
tags gives exactly the title-cased words of the original tags. -/
theorem pySplit_pyTitle (s : List Char) :
    pySplit (pyTitle s) = (pySplit s).map pyTitle := by
  have h := pySplitGo_pyTitleGo s []
  rw [show titledAcc [] = [] from rfl, show headCased [] = false from rfl] at h
  exact h

/-- Modelled from the spec: the displayed cell title is the first 5
whitespace-separated tokens of the raw tags field, each capitalized
(title-cased), with a trailing "..." appended exactly when the tags contain
more than 5 tokens. -/
def specTitleText (tags : List Char) : List Char :=
  List.intercalate [' '] (((pySplit tags).map pyTitle).take 5) ++
    (if 5 < (pySplit tags).length then ['.', '.', '.'] else [])

/-- C7: For every tags string, the displayed cell title is the first 5
whitespace-separated tokens of the tags, each capitalized, with "..."
appended exactly when the tags contain more than 5 tokens; in particular
tags "red fox running in snow field today" yield
"Red Fox Running In Snow...". -/
theorem c7_title_truncation :
    (∀ tags, title_text tags = specTitleText tags) ∧
    title_text ("red fox running in snow field today".toList) =
      ("Red Fox Running In Snow...".toList) := by
  constructor
  · intro tags
    unfold title_text specTitleText
    rw [pySplit_pyTitle, List.length_map]
  · decide

end PyMaginAPI
